import Mathlib

/-!
Verification of the Serving Advancer of the virtual waiting room
(`source/core-api/lambda_functions/set_counter_positions_expired.py`).

The lambda reads three integer counters from the cache
(`max_queue_position_expired`, `serving_counter`, `queue_counter`), queries
the serving-counter checkpoint table for checkpoints strictly beyond the
expired frontier, and walks them: for each checkpoint it looks up the
position record with the matching queue position, stops if the record is
missing or the time in queue is still within the expiry period, and
otherwise advances the frontier, credits the serving counter by
`(checkpoint_position - previous_position) - queue_positions_served`, and
appends a fresh checkpoint.

Python integers are unbounded, so all counters and timestamps are `Int`.
The ledger tables are lists of records; the DynamoDB query on the
checkpoint table is a filter on `serving_counter`, and the point query on
the position table returns the first record with the matching
`queue_position`.
-/

/-- A row of the serving-counter issued-at table: one checkpoint per
serving-counter advance. Fields mirror the DynamoDB item attributes. -/
structure CheckpointRec where
  serving_counter : Int
  issue_time : Int
  queue_positions_served : Int
deriving DecidableEq, Repr

/-- A row of the queue-position issued-at table: one record per issued
queue position. -/
structure PositionRec where
  queue_position : Int
  issue_time : Int
deriving DecidableEq, Repr

/-- The three cache counters the lambda reads (and two of which it
writes). -/
structure CacheState where
  max_queue_position_expired : Int
  serving_counter : Int
  queue_counter : Int
deriving DecidableEq, Repr

/-- The two ledger tables. -/
structure LedgerState where
  queue_position_items : List PositionRec
  serving_counter_items : List CheckpointRec
deriving DecidableEq, Repr

/-- Full mutable state touched by a run: cache counters plus ledger. -/
structure SysState where
  cache : CacheState
  ledger : LedgerState
deriving DecidableEq, Repr

/-- Run environment: the wall-clock time read at the start of the run and
the configured `QUEUE_POSITION_EXPIRY_PERIOD`. -/
structure Env where
  current_time : Int
  queue_position_expiry_period : Int
deriving DecidableEq, Repr

/-- The query on the queue-position table with
`Key(queue_position).eq(pos)`: the first stored record whose
`queue_position` equals `pos` (the code reads `queue_position_items[0]`). -/
def lookupQueuePosition (positions : List PositionRec) (pos : Int) :
    Option PositionRec :=
  positions.find? (fun p => p.queue_position == pos)

/-- The query on the checkpoint table with `Key(serving_counter).gt(m)`:
all stored checkpoints strictly beyond `m`. -/
def queryServingCounterItems (ledger : LedgerState) (m : Int) :
    List CheckpointRec :=
  ledger.serving_counter_items.filter (fun c => m < c.serving_counter)

/-- One eligible loop iteration: `SET` the expired frontier to the
checkpoint's position, `INCRBY` the serving counter by
`(position - previous) - queue_positions_served`, and `put_item` a new
checkpoint carrying the post-increment counter value, the current time,
and `queue_positions_served = 0`. -/
def applyCheckpoint (env : Env) (prev : Int) (c : CheckpointRec)
    (st : SysState) : SysState :=
  let increment_by := (c.serving_counter - prev) - c.queue_positions_served
  let cur_serving := st.cache.serving_counter + increment_by
  { cache := { st.cache with
      max_queue_position_expired := c.serving_counter,
      serving_counter := cur_serving },
    ledger := { st.ledger with
      serving_counter_items := st.ledger.serving_counter_items ++
        [{ serving_counter := cur_serving,
           issue_time := env.current_time,
           queue_positions_served := 0 }] } }

/-- The `for serving_counter_item in serving_counter_items` loop. `prev`
is `previous_serving_counter_position`. The two `break`s (missing
position record; time in queue still within the expiry period) return the
state as it stands. -/
def processItems (env : Env) (prev : Int) (st : SysState) :
    List CheckpointRec → SysState
  | [] => st
  | c :: rest =>
    match lookupQueuePosition st.ledger.queue_position_items
        c.serving_counter with
    | none => st
    | some qp =>
      let time_in_queue := max qp.issue_time c.issue_time
      if env.current_time - time_in_queue <
          env.queue_position_expiry_period then st
      else
        processItems env c.serving_counter (applyCheckpoint env prev c st)
          rest

/-- The lambda entry point: read the counters, query checkpoints beyond
the expired frontier, return unchanged if there are none, otherwise walk
them with `previous_serving_counter_position` starting at the frontier. -/
def lambda_handler (env : Env) (st : SysState) : SysState :=
  let m := st.cache.max_queue_position_expired
  let serving_counter_items := queryServingCounterItems st.ledger m
  if serving_counter_items.isEmpty then st
  else processItems env m st serving_counter_items

/-- Bookkeeping soundness of a checkpoint sequence relative to a starting
frontier: along the sequence, each checkpoint claims at most its whole
span (`queue_positions_served ≤ serving_counter - previous position`), so
the credit the loop computes for it is non-negative. -/
def spansOK (prev : Int) : List CheckpointRec → Prop
  | [] => True
  | c :: rest =>
    c.queue_positions_served ≤ c.serving_counter - prev ∧
      spansOK c.serving_counter rest

instance instSpansOKDecidable :
    (prev : Int) → (l : List CheckpointRec) → Decidable (spansOK prev l)
  | _, [] => isTrue trivial
  | _, c :: rest =>
    haveI := instSpansOKDecidable c.serving_counter rest
    inferInstanceAs (Decidable (_ ∧ _))

/-- The loop never touches the queue-position table. -/
theorem processItems_queue_position_items (env : Env)
    (l : List CheckpointRec) : ∀ (prev : Int) (st : SysState),
    (processItems env prev st l).ledger.queue_position_items =
      st.ledger.queue_position_items := by
  induction l with
  | nil => intro _ _; rfl
  | cons c rest ih =>
    intro prev st
    simp only [processItems]
    cases hl : lookupQueuePosition st.ledger.queue_position_items
        c.serving_counter with
    | none => rfl
    | some qp =>
      by_cases hw : env.current_time - max qp.issue_time c.issue_time <
          env.queue_position_expiry_period
      · simp [hw]
      · simp only [if_neg hw]
        exact ih c.serving_counter (applyCheckpoint env prev c st)

/-- The loop never touches the queue counter. -/
theorem processItems_queue_counter (env : Env)
    (l : List CheckpointRec) : ∀ (prev : Int) (st : SysState),
    (processItems env prev st l).cache.queue_counter =
      st.cache.queue_counter := by
  induction l with
  | nil => intro _ _; rfl
  | cons c rest ih =>
    intro prev st
    simp only [processItems]
    cases hl : lookupQueuePosition st.ledger.queue_position_items
        c.serving_counter with
    | none => rfl
    | some qp =>
      by_cases hw : env.current_time - max qp.issue_time c.issue_time <
          env.queue_position_expiry_period
      · simp [hw]
      · simp only [if_neg hw]
        exact ih c.serving_counter (applyCheckpoint env prev c st)

/-- The loop only ever appends to the checkpoint table. -/
theorem processItems_serving_counter_items_append (env : Env)
    (l : List CheckpointRec) : ∀ (prev : Int) (st : SysState),
    ∃ new, (processItems env prev st l).ledger.serving_counter_items =
      st.ledger.serving_counter_items ++ new := by
  induction l with
  | nil => intro prev st; exact ⟨[], by simp [processItems]⟩
  | cons c rest ih =>
    intro prev st
    simp only [processItems]
    cases hl : lookupQueuePosition st.ledger.queue_position_items
        c.serving_counter with
    | none => exact ⟨[], by simp⟩
    | some qp =>
      by_cases hw : env.current_time - max qp.issue_time c.issue_time <
          env.queue_position_expiry_period
      · simp only [if_pos hw]
        exact ⟨[], by simp⟩
      · simp only [if_neg hw]
        obtain ⟨new, hnew⟩ :=
          ih c.serving_counter (applyCheckpoint env prev c st)
        refine ⟨(⟨st.cache.serving_counter +
          ((c.serving_counter - prev) - c.queue_positions_served),
          env.current_time, 0⟩ : CheckpointRec) :: new, ?_⟩
        rw [hnew]
        simp [applyCheckpoint, List.append_assoc]

/-- The loop can only move `max_queue_position_expired` to positions of
checkpoints it was handed, so any lower bound on the starting frontier
and on the handed positions is a lower bound on the final frontier. -/
theorem processItems_max_expired_ge (env : Env) (m : Int)
    (l : List CheckpointRec) : ∀ (prev : Int) (st : SysState),
    m ≤ st.cache.max_queue_position_expired →
    (∀ c ∈ l, m ≤ c.serving_counter) →
    m ≤ (processItems env prev st l).cache.max_queue_position_expired := by
  induction l with
  | nil => intro prev st h0 _; exact h0
  | cons c rest ih =>
    intro prev st h0 hl
    simp only [processItems]
    cases hq : lookupQueuePosition st.ledger.queue_position_items
        c.serving_counter with
    | none => exact h0
    | some qp =>
      by_cases hw : env.current_time - max qp.issue_time c.issue_time <
          env.queue_position_expiry_period
      · simpa [hw] using h0
      · simp only [if_neg hw]
        refine ih c.serving_counter (applyCheckpoint env prev c st) ?_ ?_
        · exact hl c (List.mem_cons_self c rest)
        · exact fun d hd => hl d (List.mem_cons_of_mem c hd)

/-- When no checkpoint over-counts its span, every applied credit is
non-negative, so the loop never lowers the serving counter. -/
theorem processItems_serving_ge (env : Env) (l : List CheckpointRec) :
    ∀ (prev : Int) (st : SysState), spansOK prev l →
    st.cache.serving_counter ≤
      (processItems env prev st l).cache.serving_counter := by
  induction l with
  | nil => intro prev st _; exact le_refl _
  | cons c rest ih =>
    intro prev st hspans
    obtain ⟨hspan, hrest⟩ := hspans
    simp only [processItems]
    cases hq : lookupQueuePosition st.ledger.queue_position_items
        c.serving_counter with
    | none => exact le_refl _
    | some qp =>
      by_cases hw : env.current_time - max qp.issue_time c.issue_time <
          env.queue_position_expiry_period
      · simp [hw]
      · simp only [if_neg hw]
        refine le_trans ?_
          (ih c.serving_counter (applyCheckpoint env prev c st) hrest)
        show st.cache.serving_counter ≤ st.cache.serving_counter +
          ((c.serving_counter - prev) - c.queue_positions_served)
        omega

/-- Loop invariant behind the bounding property: if no handed checkpoint
over-counts its span and none lies beyond the lower bound `s` on the
serving counter, the loop keeps `max_queue_position_expired ≤
serving_counter` and keeps the serving counter at or above `s`. -/
theorem processItems_bound (env : Env) (s : Int)
    (l : List CheckpointRec) : ∀ (prev : Int) (st : SysState),
    spansOK prev l → (∀ c ∈ l, c.serving_counter ≤ s) →
    st.cache.max_queue_position_expired ≤ st.cache.serving_counter →
    s ≤ st.cache.serving_counter →
    (processItems env prev st l).cache.max_queue_position_expired ≤
        (processItems env prev st l).cache.serving_counter ∧
      s ≤ (processItems env prev st l).cache.serving_counter := by
  induction l with
  | nil => intro prev st _ _ h1 h2; exact ⟨h1, h2⟩
  | cons c rest ih =>
    intro prev st hspans hle h1 h2
    obtain ⟨hspan, hrest⟩ := hspans
    simp only [processItems]
    cases hq : lookupQueuePosition st.ledger.queue_position_items
        c.serving_counter with
    | none => exact ⟨h1, h2⟩
    | some qp =>
      by_cases hw : env.current_time - max qp.issue_time c.issue_time <
          env.queue_position_expiry_period
      · simp only [if_pos hw]
        exact ⟨h1, h2⟩
      · simp only [if_neg hw]
        refine ih c.serving_counter (applyCheckpoint env prev c st) hrest
          (fun d hd => hle d (List.mem_cons_of_mem c hd)) ?_ ?_
        · show c.serving_counter ≤ st.cache.serving_counter +
            ((c.serving_counter - prev) - c.queue_positions_served)
          have hcs : c.serving_counter ≤ s :=
            hle c (List.mem_cons_self c rest)
          omega
        · show s ≤ st.cache.serving_counter +
            ((c.serving_counter - prev) - c.queue_positions_served)
          omega

/-- A checkpoint at which the loop body stops: either its queue-position
lookup comes back empty, or the time in queue is still within the expiry
period. -/
def haltsAt (env : Env) (positions : List PositionRec)
    (c : CheckpointRec) : Prop :=
  match lookupQueuePosition positions c.serving_counter with
  | none => True
  | some qp => env.current_time - max qp.issue_time c.issue_time <
      env.queue_position_expiry_period

/-- Reaching a halting checkpoint discards it and everything after it:
the loop run on `pre ++ c :: rest` is the loop run on `pre` alone. -/
theorem processItems_halt_append (env : Env) (c : CheckpointRec)
    (rest : List CheckpointRec) (pre : List CheckpointRec) :
    ∀ (prev : Int) (st : SysState),
    haltsAt env st.ledger.queue_position_items c →
    processItems env prev st (pre ++ c :: rest) =
      processItems env prev st pre := by
  induction pre with
  | nil =>
    intro prev st hc
    simp only [List.nil_append, processItems]
    cases hq : lookupQueuePosition st.ledger.queue_position_items
        c.serving_counter with
    | none => rfl
    | some qp =>
      simp only [haltsAt, hq] at hc
      simp [hc]
  | cons a pre ih =>
    intro prev st hc
    simp only [List.cons_append, processItems]
    cases hq : lookupQueuePosition st.ledger.queue_position_items
        a.serving_counter with
    | none => rfl
    | some qp =>
      by_cases hw : env.current_time - max qp.issue_time a.issue_time <
          env.queue_position_expiry_period
      · simp [hw]
      · simp only [if_neg hw]
        exact ih a.serving_counter (applyCheckpoint env prev a st) hc

/-- Claim C1: for every eligible checkpoint the amount added to the
serving counter is `(serving_counter_value - previous_position) -
queue_positions_served`, and the loop continues with the checkpoint's
original `serving_counter_value` as the new previous position, not the
post-increment counter value. -/
theorem serving_advancer_credit (env : Env) (prev : Int) (st : SysState)
    (c : CheckpointRec) (rest : List CheckpointRec) (qp : PositionRec)
    (hq : lookupQueuePosition st.ledger.queue_position_items
      c.serving_counter = some qp)
    (hw : ¬ (env.current_time - max qp.issue_time c.issue_time <
      env.queue_position_expiry_period)) :
    (applyCheckpoint env prev c st).cache.serving_counter =
      st.cache.serving_counter +
        ((c.serving_counter - prev) - c.queue_positions_served) ∧
    processItems env prev st (c :: rest) =
      processItems env c.serving_counter (applyCheckpoint env prev c st)
        rest := by
  constructor
  · rfl
  · simp only [processItems, hq]
    rw [if_neg hw]

/-- Witness for C1: with the previous position at 100 and a checkpoint at
150 that served 5 positions, the serving counter (at 200) is credited by
exactly 45. -/
theorem serving_advancer_credit_witness :
    (applyCheckpoint ⟨1000, 100⟩ 100 ⟨150, 0, 5⟩
      ⟨⟨100, 200, 300⟩,
        ⟨[⟨150, 0⟩], [⟨150, 0, 5⟩]⟩⟩).cache.serving_counter = 245 := by
  have h := serving_advancer_credit ⟨1000, 100⟩ 100
    ⟨⟨100, 200, 300⟩, ⟨[⟨150, 0⟩], [⟨150, 0, 5⟩]⟩⟩ ⟨150, 0, 5⟩ []
    ⟨150, 0⟩ (by decide) (by decide)
  rw [h.1]
  decide

/-- Claim C2: the first checkpoint whose time in queue is still within
the expiry period terminates the pass: the whole run equals processing
only the checkpoints before it, so neither it nor any later checkpoint in
the queried range mutates anything; with no earlier checkpoints the run
is a no-op. -/
theorem serving_advancer_early_exit (env : Env) (st : SysState)
    (pre rest : List CheckpointRec) (c : CheckpointRec) (qp : PositionRec)
    (hq : queryServingCounterItems st.ledger
      st.cache.max_queue_position_expired = pre ++ c :: rest)
    (hfound : lookupQueuePosition st.ledger.queue_position_items
      c.serving_counter = some qp)
    (hwithin : env.current_time - max qp.issue_time c.issue_time <
      env.queue_position_expiry_period) :
    lambda_handler env st =
      processItems env st.cache.max_queue_position_expired st pre := by
  have hhalt : haltsAt env st.ledger.queue_position_items c := by
    simp only [haltsAt, hfound]
    exact hwithin
  have hne : (pre ++ c :: rest).isEmpty = false := by simp
  simp only [lambda_handler, hq, hne, Bool.false_eq_true, if_false]
  exact processItems_halt_append env c rest pre
    st.cache.max_queue_position_expired st hhalt

/-- Witness for C2: a recent checkpoint at 9 halts the pass after the old
checkpoint at 5 is applied, even though the checkpoint at 30 after it is
itself long past the expiry period. -/
theorem serving_advancer_early_exit_witness :
    lambda_handler ⟨1000, 100⟩
      ⟨⟨0, 5, 30⟩, ⟨[⟨5, 0⟩, ⟨9, 950⟩, ⟨30, 0⟩],
        [⟨5, 0, 0⟩, ⟨9, 950, 0⟩, ⟨30, 0, 0⟩]⟩⟩ =
      processItems ⟨1000, 100⟩ 0
        ⟨⟨0, 5, 30⟩, ⟨[⟨5, 0⟩, ⟨9, 950⟩, ⟨30, 0⟩],
          [⟨5, 0, 0⟩, ⟨9, 950, 0⟩, ⟨30, 0, 0⟩]⟩⟩ [⟨5, 0, 0⟩] := by
  exact serving_advancer_early_exit ⟨1000, 100⟩ _ [⟨5, 0, 0⟩]
    [⟨30, 0, 0⟩] ⟨9, 950, 0⟩ ⟨9, 950⟩ (by decide) (by decide) (by decide)

/-- Counterexample to C3: with the serving counter at 100 and an eligible
checkpoint at 10 claiming 50 served positions, the computed credit is
`(10 - 0) - 50 = -40`, yet the run applies it, dropping the serving
counter to 60 and completing without surfacing any fault. -/
theorem negative_credit_applied_counterexample :
    ((10 : Int) - 0) - 50 < 0 ∧
    (lambda_handler ⟨1000, 100⟩
      ⟨⟨0, 100, 100⟩,
        ⟨[⟨10, 0⟩], [⟨10, 0, 50⟩]⟩⟩).cache.serving_counter = 60 := by
  decide

/-- Claim C3 (amended): a negative computed credit is applied to the
serving counter like any other value — the loop neither aborts the item
nor surfaces a fault, it proceeds to the remaining checkpoints with the
serving counter strictly decreased. -/
theorem serving_advancer_negative_credit_applied (env : Env) (prev : Int)
    (st : SysState) (c : CheckpointRec) (rest : List CheckpointRec)
    (qp : PositionRec)
    (hq : lookupQueuePosition st.ledger.queue_position_items
      c.serving_counter = some qp)
    (hw : ¬ (env.current_time - max qp.issue_time c.issue_time <
      env.queue_position_expiry_period))
    (hneg : (c.serving_counter - prev) - c.queue_positions_served < 0) :
    processItems env prev st (c :: rest) =
      processItems env c.serving_counter (applyCheckpoint env prev c st)
        rest ∧
    (applyCheckpoint env prev c st).cache.serving_counter <
      st.cache.serving_counter := by
  constructor
  · simp only [processItems, hq]
    rw [if_neg hw]
  · show st.cache.serving_counter +
      ((c.serving_counter - prev) - c.queue_positions_served) <
      st.cache.serving_counter
    omega

/-- Witness for the amended C3: the eligible checkpoint at 10 with 50
served positions strictly lowers the serving counter from 100. -/
theorem serving_advancer_negative_credit_applied_witness :
    (applyCheckpoint ⟨1000, 100⟩ 0 ⟨10, 0, 50⟩
      ⟨⟨0, 100, 100⟩,
        ⟨[⟨10, 0⟩], [⟨10, 0, 50⟩]⟩⟩).cache.serving_counter < 100 :=
  (serving_advancer_negative_credit_applied ⟨1000, 100⟩ 0
    ⟨⟨0, 100, 100⟩, ⟨[⟨10, 0⟩], [⟨10, 0, 50⟩]⟩⟩ ⟨10, 0, 50⟩ [] ⟨10, 0⟩
    (by decide) (by decide) (by decide)).2

/-- Claim C4: a scanned checkpoint whose queue-position lookup comes back
empty halts processing before that checkpoint: the run equals processing
only the checkpoints before it, so the mutations of earlier eligible
checkpoints remain applied and nothing later is touched. -/
theorem serving_advancer_missing_record_halts (env : Env) (st : SysState)
    (pre rest : List CheckpointRec) (c : CheckpointRec)
    (hq : queryServingCounterItems st.ledger
      st.cache.max_queue_position_expired = pre ++ c :: rest)
    (hmiss : lookupQueuePosition st.ledger.queue_position_items
      c.serving_counter = none) :
    lambda_handler env st =
      processItems env st.cache.max_queue_position_expired st pre := by
  have hhalt : haltsAt env st.ledger.queue_position_items c := by
    simp only [haltsAt, hmiss]
  have hne : (pre ++ c :: rest).isEmpty = false := by simp
  simp only [lambda_handler, hq, hne, Bool.false_eq_true, if_false]
  exact processItems_halt_append env c rest pre
    st.cache.max_queue_position_expired st hhalt

/-- Witness for C4: the checkpoint at 9 has no position record, so the
run equals processing just the eligible checkpoint at 5. -/
theorem serving_advancer_missing_record_halts_witness :
    lambda_handler ⟨1000, 100⟩
      ⟨⟨0, 10, 10⟩, ⟨[⟨5, 0⟩], [⟨5, 0, 0⟩, ⟨9, 0, 0⟩]⟩⟩ =
      processItems ⟨1000, 100⟩ 0
        ⟨⟨0, 10, 10⟩, ⟨[⟨5, 0⟩], [⟨5, 0, 0⟩, ⟨9, 0, 0⟩]⟩⟩ [⟨5, 0, 0⟩] :=
  serving_advancer_missing_record_halts ⟨1000, 100⟩ _ [⟨5, 0, 0⟩] []
    ⟨9, 0, 0⟩ (by decide) (by decide)

/-- Claim C5: from frontier 0, serving counter 10, and a single old
checkpoint at 10 with nothing served, the run sets the frontier to 10,
credits the serving counter by 10 (to 20), and appends exactly one new
checkpoint carrying the post-increment value 20 and zero served
positions. -/
theorem serving_advancer_simple_skip :
    lambda_handler ⟨1000, 100⟩
      ⟨⟨0, 10, 20⟩, ⟨[⟨10, 50⟩], [⟨10, 100, 0⟩]⟩⟩ =
      ⟨⟨10, 20, 20⟩, ⟨[⟨10, 50⟩], [⟨10, 100, 0⟩, ⟨20, 1000, 0⟩]⟩⟩ := by
  decide

/-- Counterexample to C6: all three counters are non-negative (frontier
0, serving 50, queue 50), yet one run drops the serving counter below 50,
because the eligible checkpoint at 20 claims 40 served positions and the
credit `(20 - 0) - 40 = -20` is applied as-is. -/
theorem serving_counter_decreases_counterexample :
    (lambda_handler ⟨1000, 100⟩
      ⟨⟨0, 50, 50⟩,
        ⟨[⟨20, 0⟩], [⟨20, 0, 40⟩]⟩⟩).cache.serving_counter < 50 := by
  decide

/-- Claim C6 (amended): across a run, `max_queue_position_expired` never
decreases; `serving_counter` never decreases provided no checkpoint in
the queried range over-counts its span (each `queue_positions_served` is
at most the distance to the previous processed position), which is
exactly what keeps every applied credit non-negative. -/
theorem serving_advancer_monotonic (env : Env) (st : SysState) :
    st.cache.max_queue_position_expired ≤
      (lambda_handler env st).cache.max_queue_position_expired ∧
    (spansOK st.cache.max_queue_position_expired
        (queryServingCounterItems st.ledger
          st.cache.max_queue_position_expired) →
      st.cache.serving_counter ≤
        (lambda_handler env st).cache.serving_counter) := by
  simp only [lambda_handler]
  by_cases he : (queryServingCounterItems st.ledger
      st.cache.max_queue_position_expired).isEmpty = true
  · simp [he]
  · simp only [he, if_false]
    constructor
    · refine processItems_max_expired_ge env
        st.cache.max_queue_position_expired _ _ st (le_refl _) ?_
      intro c hc
      simp only [queryServingCounterItems, List.mem_filter] at hc
      have hlt : st.cache.max_queue_position_expired <
          c.serving_counter := by simpa using hc.2
      exact le_of_lt hlt
    · intro hs
      exact processItems_serving_ge env _ _ st hs

/-- Witness for the amended C6: a run over a well-bookkept ledger moves
the frontier from 0 up to 10 and the serving counter from 10 up to 17. -/
theorem serving_advancer_monotonic_witness :
    (0 : Int) ≤ (lambda_handler ⟨1000, 100⟩
      ⟨⟨0, 10, 10⟩,
        ⟨[⟨10, 0⟩], [⟨10, 0, 3⟩]⟩⟩).cache.max_queue_position_expired ∧
    (10 : Int) ≤ (lambda_handler ⟨1000, 100⟩
      ⟨⟨0, 10, 10⟩,
        ⟨[⟨10, 0⟩], [⟨10, 0, 3⟩]⟩⟩).cache.serving_counter := by
  have h := serving_advancer_monotonic ⟨1000, 100⟩
    ⟨⟨0, 10, 10⟩, ⟨[⟨10, 0⟩], [⟨10, 0, 3⟩]⟩⟩
  exact ⟨h.1, h.2 (by decide)⟩

/-- Counterexample to C7: the initial state satisfies
`max_queue_position_expired ≤ serving_counter` (0 ≤ 0), but after the run
over a checkpoint at 10 claiming 5 served positions the frontier is 10
while the serving counter is only 5. -/
theorem bounding_violated_counterexample :
    (0 : Int) ≤ 0 ∧
    ¬ ((lambda_handler ⟨1000, 100⟩
        ⟨⟨0, 0, 0⟩,
          ⟨[⟨10, 0⟩], [⟨10, 0, 5⟩]⟩⟩).cache.max_queue_position_expired ≤
      (lambda_handler ⟨1000, 100⟩
        ⟨⟨0, 0, 0⟩,
          ⟨[⟨10, 0⟩], [⟨10, 0, 5⟩]⟩⟩).cache.serving_counter) := by
  decide

/-- Claim C7 (amended): a completed pass preserves
`max_queue_position_expired ≤ serving_counter` provided additionally that
every queried checkpoint lies at or below the initial serving counter and
that no queried checkpoint over-counts its span. -/
theorem serving_advancer_bounding (env : Env) (st : SysState)
    (h0 : st.cache.max_queue_position_expired ≤ st.cache.serving_counter)
    (hle : ∀ c ∈ queryServingCounterItems st.ledger
        st.cache.max_queue_position_expired,
      c.serving_counter ≤ st.cache.serving_counter)
    (hspans : spansOK st.cache.max_queue_position_expired
      (queryServingCounterItems st.ledger
        st.cache.max_queue_position_expired)) :
    (lambda_handler env st).cache.max_queue_position_expired ≤
      (lambda_handler env st).cache.serving_counter := by
  simp only [lambda_handler]
  by_cases he : (queryServingCounterItems st.ledger
      st.cache.max_queue_position_expired).isEmpty = true
  · simp [he, h0]
  · simp only [he, if_false]
    exact (processItems_bound env st.cache.serving_counter _ _ st hspans
      hle h0 (le_refl _)).1

/-- Witness for the amended C7: frontier 2 and serving counter 12, one
well-bookkept checkpoint at 12; after the run the frontier 12 stays below
the serving counter 18. -/
theorem serving_advancer_bounding_witness :
    (lambda_handler ⟨1000, 100⟩
      ⟨⟨2, 12, 12⟩,
        ⟨[⟨12, 0⟩], [⟨12, 0, 4⟩]⟩⟩).cache.max_queue_position_expired ≤
    (lambda_handler ⟨1000, 100⟩
      ⟨⟨2, 12, 12⟩,
        ⟨[⟨12, 0⟩], [⟨12, 0, 4⟩]⟩⟩).cache.serving_counter :=
  serving_advancer_bounding ⟨1000, 100⟩
    ⟨⟨2, 12, 12⟩, ⟨[⟨12, 0⟩], [⟨12, 0, 4⟩]⟩⟩
    (by decide) (by decide) (by decide)

/-- Claim C8: a run reads but never writes the queue-position table,
never writes the queue counter, and never mutates an existing checkpoint:
the checkpoint table only grows by appended records, and the only cache
writes are to the serving counter and the expired frontier. -/
theorem serving_advancer_frame (env : Env) (st : SysState) :
    (lambda_handler env st).ledger.queue_position_items =
      st.ledger.queue_position_items ∧
    (lambda_handler env st).cache.queue_counter =
      st.cache.queue_counter ∧
    ∃ new, (lambda_handler env st).ledger.serving_counter_items =
      st.ledger.serving_counter_items ++ new := by
  simp only [lambda_handler]
  by_cases he : (queryServingCounterItems st.ledger
      st.cache.max_queue_position_expired).isEmpty = true
  · simp [he]
  · simp only [he, if_false]
    exact ⟨processItems_queue_position_items env _ _ st,
      processItems_queue_counter env _ _ st,
      processItems_serving_counter_items_append env _ _ st⟩

/-- Claim C9: when the checkpoint query beyond the expired frontier
returns nothing, the run is a complete no-op on cache and ledger. -/
theorem serving_advancer_nowork (env : Env) (st : SysState)
    (h : queryServingCounterItems st.ledger
      st.cache.max_queue_position_expired = []) :
    lambda_handler env st = st := by
  simp [lambda_handler, h]

/-- Witness for C9: with the only checkpoint at 3 not beyond the frontier
5, the query is empty and the run returns the state unchanged. -/
theorem serving_advancer_nowork_witness :
    lambda_handler ⟨1000, 100⟩
      ⟨⟨5, 7, 9⟩, ⟨[⟨3, 0⟩], [⟨3, 0, 0⟩]⟩⟩ =
      ⟨⟨5, 7, 9⟩, ⟨[⟨3, 0⟩], [⟨3, 0, 0⟩]⟩⟩ :=
  serving_advancer_nowork ⟨1000, 100⟩
    ⟨⟨5, 7, 9⟩, ⟨[⟨3, 0⟩], [⟨3, 0, 0⟩]⟩⟩ (by decide)

/-- Claim C10: a checkpoint whose elapsed time exactly equals the expiry
period is eligible: the strict `<` early-exit does not fire, so the
checkpoint is processed and the loop continues. -/
theorem expiry_boundary_eligible (env : Env) (prev : Int) (st : SysState)
    (c : CheckpointRec) (rest : List CheckpointRec) (qp : PositionRec)
    (hq : lookupQueuePosition st.ledger.queue_position_items
      c.serving_counter = some qp)
    (hb : env.current_time - max qp.issue_time c.issue_time =
      env.queue_position_expiry_period) :
    processItems env prev st (c :: rest) =
      processItems env c.serving_counter (applyCheckpoint env prev c st)
        rest := by
  simp only [processItems, hq]
  rw [hb, if_neg (lt_irrefl _)]

/-- Witness for C10: at time 100 with expiry period 50, a checkpoint whose
time in queue is exactly 50 seconds old is processed, not skipped. -/
theorem expiry_boundary_eligible_witness :
    processItems ⟨100, 50⟩ 0
      ⟨⟨0, 9, 9⟩, ⟨[⟨9, 50⟩], [⟨9, 30, 0⟩]⟩⟩ [⟨9, 30, 0⟩] =
      processItems ⟨100, 50⟩ 9
        (applyCheckpoint ⟨100, 50⟩ 0 ⟨9, 30, 0⟩
          ⟨⟨0, 9, 9⟩, ⟨[⟨9, 50⟩], [⟨9, 30, 0⟩]⟩⟩) [] :=
  expiry_boundary_eligible ⟨100, 50⟩ 0
    ⟨⟨0, 9, 9⟩, ⟨[⟨9, 50⟩], [⟨9, 30, 0⟩]⟩⟩ ⟨9, 30, 0⟩ [] ⟨9, 50⟩
    (by decide) (by decide)
